import Mathlib

/-!
# Verification of PVGeo's delimited text reader (`PVGeo/readers/delimited.py`)

A shallow embedding of the reader/cache/header logic of
`DelimitedTextReader`, `DelimitedPointsReaderBase` and `XYZTextReader`.
Python strings are modelled as `List Char`; file handles as a record of
raw physical lines (each line keeps its trailing newline, the way Python's
`readline` returns it), a cursor position, and a closed flag.  Fallible
Python code returns `Except PyErr`, and mutation of handles or of the
reader object is explicit state passing.
-/

namespace PVGeo

/-- Python's notion of whitespace for `str.strip()` / `str.split()`
(ASCII fragment: space, tab, newline, carriage return, vertical tab,
form feed). -/
def pyIsSpace (c : Char) : Bool :=
  c = ' ' || c = '\t' || c = '\n' || c = '\r' || c = '\x0b' || c = '\x0c'

/-- Python `str.split(sep)` for a non-empty separator string `sep`:
splits on each non-overlapping occurrence of `sep`, keeping empty
fields.  (For `sep = []`, Python raises; we return `[l]`, a case never
reached by the reader.) -/
def splitSub (sep : List Char) (l : List Char) : List (List Char) :=
  if hs : sep = [] then [l]
  else
    match l with
    | [] => [[]]
    | x :: xs =>
      if sep.isPrefixOf (x :: xs) then
        [] :: splitSub sep ((x :: xs).drop sep.length)
      else
        match splitSub sep xs with
        | [] => [[x]]
        | h :: t => (x :: h) :: t
termination_by l.length
decreasing_by
  · simp only [List.length_drop, List.length_cons]
    have : 0 < sep.length := List.length_pos.mpr hs
    omega
  · simp only [List.length_cons]
    omega

/-- Python `str.split()` (no argument): split on runs of whitespace,
discarding empty fields. -/
def splitWhite (l : List Char) : List (List Char) :=
  (List.splitOnP pyIsSpace l).filter (· ≠ [])

/-- Python `str.lstrip()` restricted to whitespace. -/
def lstrip (l : List Char) : List Char := l.dropWhile pyIsSpace

/-- Python `str.rstrip()` restricted to whitespace. -/
def rstrip (l : List Char) : List Char := (l.reverse.dropWhile pyIsSpace).reverse

/-- Python `str.strip()`. -/
def strip (l : List Char) : List Char := rstrip (lstrip l)

/-- The text after the first occurrence of the (non-empty) substring
`sep` in `l`, when `sep` occurs at all. -/
def afterFirstSub (sep : List Char) : List Char → Option (List Char)
  | [] => none
  | x :: xs =>
    if sep.isPrefixOf (x :: xs) then some ((x :: xs).drop sep.length)
    else afterFirstSub sep xs

/-- Whether the substring `sep` occurs in `l`. -/
def occursSub (sep l : List Char) : Bool := (afterFirstSub sep l).isSome

/-- Exceptions the reader's code paths can raise.  `pvgeoError` is
`_helpers.PVGeoError`; `indexError` is Python's `IndexError` (raised by
`ln[0]` on an empty string or `list[i]` out of range); `numpyError`
stands for the error `np.unique(..., axis=0)` raises on a ragged
(non-rectangular) input, which numpy rejects before the rows can be
compared; `pandasError` stands for an error raised by `pd.read_table`
(e.g. `EmptyDataError` when no data rows remain in the stream). -/
inductive PyErr where
  | pvgeoError (msg : String)
  | indexError
  | numpyError
  | pandasError
deriving DecidableEq, Repr

/-- An open Python text file: the raw physical lines exactly as
`readline` would return them (so a line keeps its trailing newline,
except possibly the file's last line), the cursor (index of the next
line to read), and whether `close()` has been called. -/
structure Handle where
  content : List (List Char)
  pos : Nat
  closed : Bool
deriving DecidableEq, Repr

/-- Python `handle.readline()`: returns the next raw line and advances,
or the empty string at end of file (cursor unchanged). -/
def Handle.readline (h : Handle) : List Char × Handle :=
  if hp : h.pos < h.content.length then
    (h.content.get ⟨h.pos, hp⟩, { h with pos := h.pos + 1 })
  else ([], h)

/-- The `for n in range(skipRows): handle.readline()` loop of
`_GetFileHandles`. -/
def skipLines : Nat → Handle → Handle
  | 0, h => h
  | n + 1, h => skipLines n h.readline.2

/-- The tabular result of parsing one file: column names and rows of
string cells (`pd.read_table` with `names=` uses exactly the given
names as the column index). -/
structure DataFrame where
  columns : List (List Char)
  rows : List (List (List Char))
deriving DecidableEq, Repr

/-- The mutable state of a `DelimitedTextReader`
(/`DelimitedPointsReaderBase`): the read-configuration fields set in
`__init__`, the cached `_data` and `_titles`, the dirty flag behind
`NeedToRead`/`Modified` of the `ReaderBase` base class, and the
subclass's `__copy_z` flag. -/
structure ReaderState where
  delimiter : List Char
  useTab : Bool
  skipRows : Nat
  comments : Char
  hasTitles : Bool
  data : List DataFrame
  titles : List (List Char)
  needToRead : Bool
  copy_z : Bool
deriving DecidableEq, Repr

/-- `_GetDeli`: `None` (whitespace splitting) when `useTab` is set,
else the configured delimiter. -/
def _GetDeli (s : ReaderState) : Option (List Char) :=
  if s.useTab then none else some s.delimiter

/-- Python `ln.split(sep)` where `sep` may be `None` (split on
whitespace runs, dropping empties) or a separator string. -/
def pysplit : Option (List Char) → List Char → List (List Char)
  | none, l => splitWhite l
  | some sep, l => splitSub sep l

/-- The comment-stripping step of `_readline`:
`ln.split(self.__comments)[0].strip()` (the comment identifier is a
single character). -/
def stripComment (c : Char) (ln : List Char) : List Char :=
  strip ((splitSub [c] ln).headD [])

/-- The `ln = handle.readline(); while ln[0] == self.__comments:
ln = handle.readline()` loop of `_readline`.  Reading at end of file
yields the empty string, whose `ln[0]` raises `IndexError`.  The
returned handle is the handle's state when the loop exits (or when the
exception is raised). -/
def _readlineLoop (c : Char) (h : Handle) : Except PyErr (List Char) × Handle :=
  if hp : h.pos < h.content.length then
    let ln := h.content.get ⟨h.pos, hp⟩
    let h' : Handle := { h with pos := h.pos + 1 }
    match ln with
    | [] => (.error .indexError, h')
    | ch :: rest => if ch = c then _readlineLoop c h' else (.ok (ch :: rest), h')
  else (.error .indexError, h)
termination_by h.content.length - h.pos
decreasing_by
  omega

/-- The loop body agrees with `Handle.readline`. -/
theorem _readlineLoop_readline (c : Char) (h : Handle) :
    _readlineLoop c h =
      match h.readline.1 with
      | [] => (.error .indexError, h.readline.2)
      | ch :: rest =>
        if ch = c then _readlineLoop c h.readline.2 else (.ok (ch :: rest), h.readline.2) := by
  rw [_readlineLoop.eq_def, Handle.readline]
  split
  · rfl
  · rfl

/-- `DelimitedTextReader._readline`: reads the next line from a file
handle ignoring comments, then strips any trailing comment and
surrounding whitespace. -/
def _readline (c : Char) (h : Handle) : Except PyErr (List Char) × Handle :=
  match _readlineLoop c h with
  | (.error e, h') => (.error e, h')
  | (.ok ln, h') => (.ok (stripComment c ln), h')

/-- `DelimitedTextReader._previewline`: `tell`, `_readline`, `seek`
back.  On success the handle is restored to its prior position; if
`_readline` raises, the `seek` never runs and the exception
propagates with the handle as the loop left it. -/
def _previewline (c : Char) (h : Handle) : Except PyErr (List Char) × Handle :=
  match _readline c h with
  | (.error e, h') => (.error e, h')
  | (.ok ln, _) => (.ok ln, h)

/-- The synthesized titles `['Field 0', ..., 'Field (n-1)']`
(`'Field %d' % i`). -/
def fieldTitles (n : Nat) : List (List Char) :=
  (List.range n).map (fun i => ("Field " ++ toString i).toList)

/-- `DelimitedTextReader._ExtractHeader`: with titles, read one logical
line and split it on the delimiter; without titles, peek one logical
line, count its fields and synthesize positional titles. -/
def _ExtractHeader (s : ReaderState) (h : Handle) :
    Except PyErr (List (List Char)) × Handle :=
  if s.hasTitles then
    match _readline s.comments h with
    | (.error e, h') => (.error e, h')
    | (.ok ln, h') => (.ok (pysplit (_GetDeli s) ln), h')
  else
    match _previewline s.comments h with
    | (.error e, h') => (.error e, h')
    | (.ok ln, h') => (.ok (fieldTitles (pysplit (_GetDeli s) ln).length), h')

/-- The `for i in range(len(handles)): ts.append(self._ExtractHeader(handles[i]))`
loop of `_ExtractHeaders`, threading each handle's state. -/
def _ExtractHeadersLoop (s : ReaderState) :
    List Handle → Except PyErr (List (List (List Char))) × List Handle
  | [] => (.ok [], [])
  | h :: hs =>
    match _ExtractHeader s h with
    | (.error e, h') => (.error e, h' :: hs)
    | (.ok t, h') =>
      match _ExtractHeadersLoop s hs with
      | (.error e, hs') => (.error e, h' :: hs')
      | (.ok ts, hs') => (.ok (t :: ts), h' :: hs')

/-- Whether a list of rows is rectangular (all rows the same length).
`np.asarray` produces a 2-D array exactly in this case; on a ragged
input it produces a 1-D object array (or itself raises, in newer
numpy), and `np.unique(..., axis=0)` then raises instead of comparing
rows. -/
def isRect : List (List (List Char)) → Bool
  | [] => true
  | t :: rest => rest.all (fun x => x.length = t.length)

/-- The distinct rows of a list.  `np.unique(..., axis=0)` returns the
distinct rows sorted; the reader only ever observes how many distinct
rows there are, and the single row when there is exactly one, so the
order in which this model keeps them is unobservable. -/
def uniqRows : List (List (List Char)) → List (List (List Char))
  | [] => []
  | t :: rest => if t ∈ uniqRows rest then uniqRows rest else t :: uniqRows rest

/-- `np.unique(np.asarray(ts), axis=0)`: the distinct title rows for a
rectangular input; a raised numpy error for a ragged one. -/
def npUniqueRows (ts : List (List (List Char))) :
    Except PyErr (List (List (List Char))) :=
  if isRect ts then .ok (uniqRows ts) else .error .numpyError

/-- Lines 114-118 of `_ExtractHeaders`: deduplicate the per-file title
sequences, fail with `PVGeoError` when more than one distinct sequence
remains, and return `ts[0]` of the deduplicated array otherwise
(Python's `ts[0]` on an empty array raises `IndexError`). -/
def reconcileTitles (ts : List (List (List Char))) :
    Except PyErr (List (List Char)) :=
  match npUniqueRows ts with
  | .error e => .error e
  | .ok u =>
    if 1 < u.length then
      .error (.pvgeoError "Data array titles varied across file timesteps. This data is invalid as a timeseries.")
    else
      match u with
      | [] => .error .indexError
      | t :: _ => .ok t

/-- `DelimitedTextReader._ExtractHeaders`: extract every file's titles,
then check that the titles are the same across files. -/
def _ExtractHeaders (s : ReaderState) (hs : List Handle) :
    Except PyErr (List (List Char)) × List Handle :=
  match _ExtractHeadersLoop s hs with
  | (.error e, hs') => (.error e, hs')
  | (.ok ts, hs') => (reconcileTitles ts, hs')

/-- Remove the trailing newline of a raw physical line, the way a
line-oriented parser consumes it. -/
def chomp (l : List Char) : List Char :=
  if l.getLast? = some '\n' then l.dropLast else l

/-- The data rows `pd.read_table` builds from the remaining raw lines
of a stream: each line loses its newline, is truncated at the comment
character, blank lines are skipped (`skip_blank_lines` default), and
the rest are split into fields. -/
def tableRows (sep : Option (List Char)) (c : Char) (lines : List (List Char)) :
    List (List (List Char)) :=
  ((lines.map (fun ln => (chomp ln).takeWhile (fun ch => ch ≠ c))).filter
    (· ≠ [])).map (pysplit sep)

/-- `pd.read_table(handle, names=..., sep=.../delim_whitespace=...,
comment=...)`: consumes the stream to end of file and builds a frame
whose column index is exactly `names`; raises (`EmptyDataError`) when
no data rows remain. -/
def readTable (names : List (List Char)) (sep : Option (List Char)) (c : Char)
    (h : Handle) : Except PyErr DataFrame × Handle :=
  let remaining := h.content.drop h.pos
  let h' : Handle := { h with pos := h.content.length }
  let rows := tableRows sep c remaining
  if rows = [] then (.error .pandasError, h')
  else (.ok ⟨names, rows⟩, h')

/-- `DelimitedTextReader._FileContentsToDataFrame`: parse each handle's
remaining content into a frame with `pd.read_table`, closing the handle
after its parse; the second component is the final state of every input
handle when the call returns or raises. -/
def _FileContentsToDataFrame (s : ReaderState) :
    List Handle → Except PyErr (List DataFrame) × List Handle
  | [] => (.ok [], [])
  | h :: hs =>
    let parsed :=
      if s.useTab then readTable s.titles none s.comments h
      else readTable s.titles (_GetDeli s) s.comments h
    match parsed with
    | (.error e, h') => (.error e, h' :: hs)
    | (.ok df, h') =>
      let hc : Handle := { h' with closed := true }
      match _FileContentsToDataFrame s hs with
      | (.error e, hs') => (.error e, hc :: hs')
      | (.ok dfs, hs') => (.ok (df :: dfs), hc :: hs')

/-- A file set: each entry is the raw lines of a file that opens
successfully, or `none` for a path whose `open` raises `IOError`. -/
abbrev FileSet := List (Option (List (List Char)))

/-- `DelimitedTextReader._GetFileHandles` (with `idx=None`, the form
`_ReadUpFront` uses): open every file, skipping `skipRows` lines in
each; an `IOError`/`OSError` is re-raised as `PVGeoError`.  The second
component is the list of handles already opened when the call returns
or raises (the source keeps them in its local `handles` list and does
not close them on failure). -/
def _GetFileHandles (s : ReaderState) :
    FileSet → Except PyErr (List Handle) × List Handle
  | [] => (.ok [], [])
  | f :: fs =>
    match f with
    | none => (.error (.pvgeoError "IOError: could not open file"), [])
    | some content =>
      let h := skipLines s.skipRows { content := content, pos := 0, closed := false }
      match _GetFileHandles s fs with
      | (.error e, hs) => (.error e, h :: hs)
      | (.ok hs, hs') => (.ok (h :: hs), h :: hs')

/-- `DelimitedTextReader._ReadUpFront`: open the handles, assign
`self._titles` from `_ExtractHeaders`, assign `self._data` from
`_FileContentsToDataFrame`, then clear the dirty flag.  Each assignment
happens only after its right-hand side returns, so an exception leaves
the fields assigned so far. -/
def _ReadUpFront (files : FileSet) (s : ReaderState) :
    Except PyErr Unit × ReaderState :=
  match _GetFileHandles s files with
  | (.error e, _) => (.error e, s)
  | (.ok handles, _) =>
    match _ExtractHeaders s handles with
    | (.error e, _) => (.error e, s)
    | (.ok titles, handles') =>
      let s1 : ReaderState := { s with titles := titles }
      match _FileContentsToDataFrame s1 handles' with
      | (.error e, _) => (.error e, s1)
      | (.ok data, _) => (.ok (), { s1 with data := data, needToRead := false })

/-- Python list subscription `l[idx]` with an `int` index: negative
indices count from the end; out-of-range access raises `IndexError`. -/
def pyListGet {α : Type} (l : List α) (idx : Int) : Except PyErr α :=
  let j : Int := if idx < 0 then idx + l.length else idx
  if hj : 0 ≤ j ∧ j < l.length then
    .ok (l.get ⟨j.toNat, by omega⟩)
  else .error .indexError

/-- `DelimitedTextReader._GetRawData`: `return self._data[idx]`. -/
def _GetRawData (s : ReaderState) (idx : Int) : Except PyErr DataFrame :=
  pyListGet s.data idx

/-- Modelled from the spec: `ReaderBase.Modified`/`NeedToRead` live in
`PVGeo/base.py`, which is not part of the sources here.  Per the spec
(§3 "Any mutation marks the cache dirty", §4.4 `FRESH --(setter with a
changed value)--> DIRTY`), `Modified()` marks the cache as needing a
re-read. -/
def Modified (s : ReaderState) : ReaderState := { s with needToRead := true }

/-- `SetDelimiter`: store and invalidate only when the value changed. -/
def SetDelimiter (deli : List Char) (s : ReaderState) : ReaderState :=
  if deli ≠ s.delimiter then Modified { s with delimiter := deli } else s

/-- `SetSplitOnWhiteSpace`. -/
def SetSplitOnWhiteSpace (flag : Bool) (s : ReaderState) : ReaderState :=
  if flag ≠ s.useTab then Modified { s with useTab := flag } else s

/-- `SetSkipRows`. -/
def SetSkipRows (skip : Nat) (s : ReaderState) : ReaderState :=
  if skip ≠ s.skipRows then Modified { s with skipRows := skip } else s

/-- `SetComments`. -/
def SetComments (identifier : Char) (s : ReaderState) : ReaderState :=
  if identifier ≠ s.comments then Modified { s with comments := identifier } else s

/-- `SetHasTitles`. -/
def SetHasTitles (flag : Bool) (s : ReaderState) : ReaderState :=
  if s.hasTitles ≠ flag then Modified { s with hasTitles := flag } else s

/-- `DelimitedPointsReaderBase.SetCopyZ`. -/
def SetCopyZ (flag : Bool) (s : ReaderState) : ReaderState :=
  if s.copy_z ≠ flag then Modified { s with copy_z := flag } else s

/-- `XYZTextReader._ExtractHeader`:
`handle.readline().split('! ')[1].strip().split(', ')` — one raw
`readline` (no comment skipping), split on the literal `'! '`, take
element 1 (raising `IndexError` when the split yields fewer than two
pieces), strip it and split it on `', '`. -/
def XYZExtractHeader (h : Handle) : Except PyErr (List (List Char)) × Handle :=
  let p := h.readline
  match (splitSub ('!' :: [' ']) p.1).get? 1 with
  | none => (.error .indexError, p.2)
  | some seg => (.ok (splitSub (',' :: [' ']) (strip seg)), p.2)

/-- The description in the claim, stated in its own words: the
`', '`-separated fields of the text after the first `'! '` marker of
the line (after stripping), or `none` when the line has no marker. -/
def specFieldsAfterMarker (ln : List Char) : Option (List (List Char)) :=
  match afterFirstSub ('!' :: [' ']) ln with
  | none => none
  | some rest => some (splitSub (',' :: [' ']) (strip rest))

/-! ## Helper lemmas about the string primitives -/

theorem strip_eq_rdropWhile_dropWhile (l : List Char) :
    strip l = List.rdropWhile pyIsSpace (l.dropWhile pyIsSpace) := by
  simp [strip, lstrip, rstrip, List.rdropWhile]

theorem dropWhile_rdropWhile_of_dropWhile_eq_self {p : Char → Bool} (m : List Char)
    (hm : m.dropWhile p = m) :
    (m.rdropWhile p).dropWhile p = m.rdropWhile p := by
  rcases hp : m.rdropWhile p with _ | ⟨a, t⟩
  · simp
  · rw [List.dropWhile_eq_self_iff] at hm ⊢
    intro hl
    obtain ⟨r, hr⟩ := List.rdropWhile_prefix p m
    rw [hp] at hr
    subst hr
    have hm0 := hm (by simp)
    simpa using hm0

theorem strip_idem (l : List Char) : strip (strip l) = strip l := by
  rw [strip_eq_rdropWhile_dropWhile, strip_eq_rdropWhile_dropWhile,
    dropWhile_rdropWhile_of_dropWhile_eq_self _ (List.dropWhile_idempotent _ _),
    List.rdropWhile_idempotent]

theorem mem_of_mem_strip {x : Char} {l : List Char} (h : x ∈ strip l) : x ∈ l := by
  rw [strip_eq_rdropWhile_dropWhile] at h
  exact ((List.dropWhile_suffix pyIsSpace).sublist.mem
    ((List.rdropWhile_prefix pyIsSpace _).sublist.mem h))

theorem splitSub_ne_nil (sep l : List Char) : splitSub sep l ≠ [] := by
  rw [splitSub.eq_def]
  split
  · simp
  · split
    · simp
    · split
      · simp
      · split <;> simp

theorem splitSub_single_headD (c : Char) (l : List Char) :
    (splitSub [c] l).headD [] = l.takeWhile (fun ch => ch ≠ c) := by
  induction l with
  | nil =>
    rw [splitSub.eq_def]
    simp
  | cons x xs ih =>
    rw [splitSub.eq_def]
    simp only [reduceCtorEq, List.isPrefixOf, List.isPrefixOf_nil_left, Bool.and_true,
      List.length_cons, List.length_nil, List.drop_succ_cons, List.drop_zero, dif_neg,
      not_false_eq_true]
    by_cases hx : c = x
    · subst hx
      simp [List.takeWhile_cons]
    · have hbeq : (c == x) = false := beq_eq_false_iff_ne.mpr hx
      rw [if_neg (by simp [hbeq])]
      rw [List.takeWhile_cons, if_pos (by simp [Ne.symm hx])]
      rcases hsp : splitSub [c] xs with _ | ⟨h, t⟩
      · exact absurd hsp (splitSub_ne_nil _ _)
      · rw [hsp] at ih
        simpa using congrArg (x :: ·) ih

theorem stripComment_eq_strip_takeWhile (c : Char) (ln : List Char) :
    stripComment c ln = strip (ln.takeWhile (fun ch => ch ≠ c)) := by
  rw [stripComment, splitSub_single_headD]

/-! ## Claim theorems -/

/-- C8: comment stripping of a logical line — truncate at the first
occurrence of the comment character, then trim surrounding whitespace,
as performed by `_readline` via `ln.split(comments)[0].strip()` — is
idempotent: applying the transformation twice yields the same string as
applying it once, for every line and every single-character comment
prefix. -/
theorem claim_C8 (c : Char) (ln : List Char) :
    stripComment c (stripComment c ln) = stripComment c ln := by
  rw [stripComment_eq_strip_takeWhile, stripComment_eq_strip_takeWhile]
  have hall : ∀ x ∈ strip (ln.takeWhile (fun ch => ch ≠ c)), decide (x ≠ c) = true := by
    intro x hx
    simpa using List.mem_takeWhile_imp (mem_of_mem_strip hx)
  rw [List.takeWhile_eq_self_iff.mpr hall, strip_idem]

/-- The spec's worked example for C8: one application of the stripping
transformation already sends `"1 2 3 ! note"` to `"1 2 3"`. -/
theorem stripComment_example :
    stripComment '!' ("1 2 3 ! note").toList = ("1 2 3").toList := by
  simp [stripComment, splitSub, strip, lstrip, rstrip, pyIsSpace]

/-- C6: each configuration setter (`SetDelimiter`,
`SetSplitOnWhiteSpace`, `SetSkipRows`, `SetComments`, `SetHasTitles`,
`SetCopyZ`) is the identity on the whole reader state when called with
the currently stored value (no `Modified` call, so the dirty flag and
all configuration are untouched), and with a different value stores the
new value and marks the cache dirty. -/
theorem claim_C6 (s : ReaderState) (d : List Char) (b : Bool) (k : Nat) (c : Char)
    (tb cb : Bool) :
    SetDelimiter d s =
      (if d = s.delimiter then s else { s with delimiter := d, needToRead := true }) ∧
    SetSplitOnWhiteSpace b s =
      (if b = s.useTab then s else { s with useTab := b, needToRead := true }) ∧
    SetSkipRows k s =
      (if k = s.skipRows then s else { s with skipRows := k, needToRead := true }) ∧
    SetComments c s =
      (if c = s.comments then s else { s with comments := c, needToRead := true }) ∧
    SetHasTitles tb s =
      (if tb = s.hasTitles then s else { s with hasTitles := tb, needToRead := true }) ∧
    SetCopyZ cb s =
      (if cb = s.copy_z then s else { s with copy_z := cb, needToRead := true }) := by
  refine ⟨?_, ?_, ?_, ?_, ?_, ?_⟩
  · by_cases h : d = s.delimiter <;> simp [SetDelimiter, Modified, h]
  · by_cases h : b = s.useTab <;> simp [SetSplitOnWhiteSpace, Modified, h]
  · by_cases h : k = s.skipRows <;> simp [SetSkipRows, Modified, h]
  · by_cases h : c = s.comments <;> simp [SetComments, Modified, h]
  · by_cases h : tb = s.hasTitles <;>
      simp [SetHasTitles, Modified, h, Ne, eq_comm]
  · by_cases h : cb = s.copy_z <;>
      simp [SetCopyZ, Modified, h, Ne, eq_comm]

/-- The concrete reader state used to settle C5: a fresh cache holding
one frame. -/
def exState5 : ReaderState :=
  { delimiter := [' '], useTab := false, skipRows := 0, comments := '!',
    hasTitles := true, data := [⟨[("x").toList], [[("1").toList]]⟩],
    titles := [("x").toList], needToRead := false, copy_z := false }

/-- C5 as stated is false: on a fresh cache of length 1, the negative
timestep index `-1` does not fail with `IndexOutOfRange`; Python's
negative indexing wraps around, so `_GetRawData` returns the last
frame. -/
theorem claim_C5_counterexample :
    exState5.needToRead = false ∧
      _GetRawData exState5 (-1) = .ok ⟨[("x").toList], [[("1").toList]]⟩ := by
  constructor
  · rfl
  · simp [_GetRawData, pyListGet, exState5]

/-- C5 (amended): on a fresh cache, an index in `[0, n)` returns the
frame at that position; an index `≥ n` or `< -n` raises `IndexError`;
and a negative index in `[-n, -1]` returns the frame at position
`n + idx` (Python indexing wraps negative indices) instead of failing.
The accessor does not mutate the reader state. -/
theorem claim_C5 (s : ReaderState) (i : Int) (hfresh : s.needToRead = false) :
    (∀ df, 0 ≤ i → s.data.get? i.toNat = some df → _GetRawData s i = .ok df) ∧
    ((i < -(s.data.length : Int) ∨ (s.data.length : Int) ≤ i) →
      _GetRawData s i = .error .indexError) ∧
    (∀ df, -(s.data.length : Int) ≤ i → i < 0 →
      s.data.get? (i + s.data.length).toNat = some df → _GetRawData s i = .ok df) := by
  refine ⟨?_, ?_, ?_⟩
  · intro df h0 hget
    rw [List.get?_eq_some] at hget
    obtain ⟨hlt, hget⟩ := hget
    rw [_GetRawData, pyListGet]
    rw [dif_pos]
    · simp only [if_neg (by omega : ¬ i < 0)]
      rw [← hget]
    · constructor <;> simp only [if_neg (by omega : ¬ i < 0)] <;> omega
  · intro hout
    rw [_GetRawData, pyListGet]
    rw [dif_neg]
    intro hcon
    rcases hout with hlo | hhi
    · rcases hcon with ⟨h1, h2⟩
      by_cases hneg : i < 0
      · simp only [if_pos hneg] at h1 h2
        omega
      · simp only [if_neg hneg] at h1 h2
        omega
    · rcases hcon with ⟨h1, h2⟩
      by_cases hneg : i < 0
      · omega
      · simp only [if_neg hneg] at h1 h2
        omega
  · intro df hlo hneg hget
    rw [List.get?_eq_some] at hget
    obtain ⟨hlt, hget⟩ := hget
    rw [_GetRawData, pyListGet]
    rw [dif_pos]
    · simp only [if_pos hneg]
      rw [← hget]
    · simp only [if_pos hneg]
      constructor <;> omega

theorem mem_uniqRows {a : List (List Char)} {ts : List (List (List Char))}
    (h : a ∈ ts) : a ∈ uniqRows ts := by
  induction ts with
  | nil => simp at h
  | cons t rest ih =>
    rw [uniqRows]
    rcases List.mem_cons.mp h with rfl | hrest
    · split
      · assumption
      · exact List.mem_cons_self _ _
    · split
      · exact ih hrest
      · exact List.mem_cons_of_mem _ (ih hrest)

theorem uniqRows_all_eq {t : List (List Char)} {ts : List (List (List Char))}
    (hne : ts ≠ []) (hall : ∀ x ∈ ts, x = t) : uniqRows ts = [t] := by
  induction ts with
  | nil => exact absurd rfl hne
  | cons x rest ih =>
    have hx : x = t := hall x (List.mem_cons_self _ _)
    subst hx
    rw [uniqRows]
    rcases hrest : rest with _ | ⟨y, r⟩
    · simp [uniqRows]
    · rw [← hrest]
      have hu : uniqRows rest = [x] := by
        refine ih (by simp [hrest]) ?_
        intro z hz
        exact hall z (List.mem_cons_of_mem _ hz)
      rw [hu]
      simp

theorem one_lt_length_of_two_mem {α : Type} {a b : α} {l : List α}
    (ha : a ∈ l) (hb : b ∈ l) (hab : a ≠ b) : 1 < l.length := by
  rcases l with _ | ⟨x, _ | ⟨y, t⟩⟩ <;> simp_all

theorem isRect_of_lengths {ts : List (List (List Char))}
    (h : ∀ x ∈ ts, ∀ y ∈ ts, x.length = y.length) : isRect ts = true := by
  rcases ts with _ | ⟨t, rest⟩
  · rfl
  · rw [isRect, List.all_eq_true]
    intro x hx
    simpa using h x (List.mem_cons_of_mem _ hx) t (List.mem_cons_self _ _)

/-- The error message of line 117 of `delimited.py`. -/
def inconsistentMsg : String :=
  "Data array titles varied across file timesteps. This data is invalid as a timeseries."

/-- C1 as stated is false at a ragged input: for the two distinct title
sequences `["a"]` and `["a", "b"]` (different column counts),
`_ExtractHeaders`' reconciliation step fails — `np.unique`/`np.asarray`
rejects the non-rectangular array — but not with the
`InconsistentSchema` `PVGeoError`. -/
theorem claim_C1_counterexample :
    reconcileTitles [[("a").toList], [("a").toList, ("b").toList]] =
        .error .numpyError ∧
      ∀ msg, reconcileTitles [[("a").toList], [("a").toList, ("b").toList]] ≠
        .error (.pvgeoError msg) := by
  constructor
  · rfl
  · intro msg h
    rw [show reconcileTitles [[("a").toList], [("a").toList, ("b").toList]] =
      .error .numpyError from rfl] at h
    exact PyErr.noConfusion (Except.error.inj h)

/-- C1 (amended): for every non-empty list of per-file title sequences
in which all sequences are identical, `reconcileTitles` (lines 114-118
of `_ExtractHeaders`) returns that common sequence unmodified; for
every list containing at least two distinct title sequences *all of the
same length*, it fails with the `InconsistentSchema` `PVGeoError` (a
ragged list instead fails with the array library's error, per the
counterexample). -/
theorem claim_C1 (ts : List (List (List Char))) (t : List (List Char)) :
    (ts ≠ [] → (∀ x ∈ ts, x = t) → reconcileTitles ts = .ok t) ∧
    ((∃ a ∈ ts, ∃ b ∈ ts, a ≠ b) →
      (∀ x ∈ ts, ∀ y ∈ ts, x.length = y.length) →
      reconcileTitles ts = .error (.pvgeoError inconsistentMsg)) := by
  constructor
  · intro hne hall
    have hrect : isRect ts = true := by
      refine isRect_of_lengths ?_
      intro x hx y hy
      rw [hall x hx, hall y hy]
    rw [reconcileTitles, npUniqueRows, if_pos hrect, uniqRows_all_eq hne hall]
    rfl
  · intro ⟨a, ha, b, hb, hab⟩ hlen
    have hrect : isRect ts = true := isRect_of_lengths hlen
    have hlt : 1 < (uniqRows ts).length :=
      one_lt_length_of_two_mem (mem_uniqRows ha) (mem_uniqRows hb) hab
    rw [reconcileTitles, npUniqueRows, if_pos hrect]
    simp only [if_pos hlt]
    rfl

/-- Witness for C1 at concrete inputs: two identical headers reconcile
to the common one; two same-length distinct headers fail with the
`PVGeoError`. -/
theorem claim_C1_witness :
    reconcileTitles [[("x").toList], [("x").toList]] = .ok [("x").toList] ∧
      reconcileTitles [[("x").toList], [("y").toList]] =
        .error (.pvgeoError inconsistentMsg) := by
  constructor
  · exact (claim_C1 [[("x").toList], [("x").toList]] [("x").toList]).1
      (by simp) (by simp)
  · exact (claim_C1 [[("x").toList], [("y").toList]] []).2
      (by refine ⟨[("x").toList], by simp, [("y").toList], by simp, by simp⟩)
      (by simp)

theorem _readlineLoop_error_of_all_comment (n : Nat) :
    ∀ (c : Char) (h : Handle), h.content.length - h.pos ≤ n →
      (∀ ln ∈ h.content.drop h.pos, ln = [] ∨ ln.head? = some c) →
      (_readlineLoop c h).1 = .error .indexError := by
  induction n with
  | zero =>
    intro c h hle _
    rw [_readlineLoop.eq_def, dif_neg (by omega)]
  | succ n ih =>
    intro c h hle hall
    rw [_readlineLoop.eq_def]
    by_cases hp : h.pos < h.content.length
    · rw [dif_pos hp]
      have hdrop : h.content.drop h.pos =
          h.content.get ⟨h.pos, hp⟩ :: h.content.drop (h.pos + 1) := by
        rw [List.drop_eq_getElem_cons hp]
        simp
      have hmem : h.content.get ⟨h.pos, hp⟩ ∈ h.content.drop h.pos := by
        rw [hdrop]
        exact List.mem_cons_self _ _
      rcases hget : h.content.get ⟨h.pos, hp⟩ with _ | ⟨ch, rest⟩
      · simp
      · rw [hget] at hmem
        rcases hall _ hmem with hnil | hhead
        · exact absurd hnil (by simp)
        · have hc : ch = c := by simpa using hhead
          simp only [hc, if_pos rfl]
          refine ih c _ (by simp; omega) ?_
          intro ln hln
          refine hall ln ?_
          rw [hdrop]
          exact List.mem_cons_of_mem _ hln
    · rw [dif_neg hp]

theorem _readline_error_of_loop_error {c : Char} {h : Handle}
    (hl : (_readlineLoop c h).1 = .error .indexError) :
    (_readline c h).1 = .error .indexError := by
  rw [_readline]
  rcases hres : _readlineLoop c h with ⟨res, h'⟩
  rw [hres] at hl
  simp only at hl
  subst hl
  rfl

/-- C9 as stated is false at an empty physical line: a blank line in a
file is the string `"\n"`, whose first character exists (`'\n'`), so
`_readline` does not raise; it returns the empty logical line. -/
theorem claim_C9_counterexample :
    _readline '!' ⟨[[' ', '\n']], 0, false⟩ = (.ok [], ⟨[[' ', '\n']], 1, false⟩) ∧
      _readline '!' ⟨[['\n']], 0, false⟩ = (.ok [], ⟨[['\n']], 1, false⟩) := by
  constructor
  · simp [_readline, _readlineLoop, stripComment, splitSub, strip, lstrip, rstrip, pyIsSpace]
  · simp [_readline, _readlineLoop, stripComment, splitSub, strip, lstrip, rstrip, pyIsSpace]

/-- C9 (amended): `_readline` raises an unguarded `IndexError` when the
stream is positioned at end of file — `readline` then returns the empty
string and `ln[0]` fails — and, consequently, whenever every remaining
line is a comment line (or empty), so header extraction on such a file
fails with the raw `IndexError`.  At an empty *physical* line (a bare
newline) it does not raise: it returns the empty logical line. -/
theorem claim_C9 (c : Char) (h : Handle) :
    (h.content.length ≤ h.pos → (_readline c h).1 = .error .indexError) ∧
    ((∀ ln ∈ h.content.drop h.pos, ln = [] ∨ ln.head? = some c) →
      (_readline c h).1 = .error .indexError) := by
  constructor
  · intro hle
    refine _readline_error_of_loop_error
      (_readlineLoop_error_of_all_comment (h.content.length - h.pos) c h le_rfl ?_)
    intro ln hln
    rw [List.drop_eq_nil_of_le hle] at hln
    simp at hln
  · intro hall
    exact _readline_error_of_loop_error
      (_readlineLoop_error_of_all_comment (h.content.length - h.pos) c h le_rfl hall)

/-- Witness for C9 at concrete inputs: a stream at end of file and a
stream whose single remaining line is a comment line. -/
theorem claim_C9_witness :
    (_readline '!' ⟨[], 0, false⟩).1 = .error .indexError ∧
      (_readline '!' ⟨[("! c\n").toList], 0, false⟩).1 = .error .indexError := by
  constructor
  · exact (claim_C9 '!' ⟨[], 0, false⟩).1 (by simp)
  · refine (claim_C9 '!' ⟨[("! c\n").toList], 0, false⟩).2 ?_
    intro ln hln
    simp at hln
    subst hln
    right
    rfl

/-- The reader state as `__init__` leaves it with the default keyword
arguments: delimiter `' '`, no whitespace splitting, no skipped rows,
comment character `'!'`, titles expected, empty cache, dirty. -/
def baseState : ReaderState :=
  { delimiter := [' '], useTab := false, skipRows := 0, comments := '!',
    hasTitles := true, data := [], titles := [], needToRead := true,
    copy_z := false }

theorem skipLines_closed (n : Nat) (h : Handle) :
    (skipLines n h).closed = h.closed := by
  induction n generalizing h with
  | zero => rfl
  | succ n ih =>
    rw [skipLines, ih, Handle.readline]
    split <;> rfl

/-- C4 as stated is false: when the second file of the set fails to
open, the `PVGeoError` propagates while the handle opened for the first
file is still open — `_GetFileHandles` performs no cleanup. -/
theorem claim_C4_counterexample :
    _GetFileHandles baseState [some [("a\n").toList], none] =
      (.error (.pvgeoError "IOError: could not open file"),
        [⟨[("a\n").toList], 0, false⟩]) ∧
      (⟨[("a\n").toList], 0, false⟩ : Handle).closed = false := by
  constructor
  · rfl
  · rfl

/-- C4 (amended): when opening any file of the set fails, the failure
propagates to the caller as `PVGeoError` (the caught `IOError`), but
the handles already opened for the earlier files are *not* closed
before the failure propagates: exactly one handle per earlier file is
left open. -/
theorem claim_C4 (s : ReaderState) (pre rest : FileSet)
    (hpre : ∀ f ∈ pre, f ≠ none) :
    (_GetFileHandles s (pre ++ none :: rest)).1 =
        .error (.pvgeoError "IOError: could not open file") ∧
      (_GetFileHandles s (pre ++ none :: rest)).2.length = pre.length ∧
      ∀ h ∈ (_GetFileHandles s (pre ++ none :: rest)).2, h.closed = false := by
  induction pre with
  | nil =>
    refine ⟨rfl, rfl, ?_⟩
    intro h hh
    simp [_GetFileHandles] at hh
  | cons f fs ih =>
    have hf : f ≠ none := hpre f (List.mem_cons_self _ _)
    rcases f with _ | content
    · exact absurd rfl hf
    · have ih' := ih (fun g hg => hpre g (List.mem_cons_of_mem _ hg))
      rcases hrec : _GetFileHandles s (fs ++ none :: rest) with ⟨res, hs⟩
      rw [hrec] at ih'
      simp only at ih'
      obtain ⟨h1, h2, h3⟩ := ih'
      subst h1
      rw [List.cons_append, _GetFileHandles, hrec]
      refine ⟨rfl, by simpa using h2, ?_⟩
      intro h hh
      rcases List.mem_cons.mp hh with rfl | hh'
      · rw [skipLines_closed]
      · exact h3 h hh'

/-- Witness for C4 at a concrete input: one successfully opened file
followed by one that fails to open. -/
theorem claim_C4_witness :
    (_GetFileHandles baseState [some [("a\n").toList], none]).1 =
        .error (.pvgeoError "IOError: could not open file") ∧
      ∀ h ∈ (_GetFileHandles baseState [some [("a\n").toList], none]).2,
        h.closed = false := by
  have hw := claim_C4 baseState [some [("a\n").toList]] [] (by simp)
  exact ⟨hw.1, hw.2.2⟩

/-- C3 is the intent of the code's own docstring ("This makes sure to
close each of the file handles"), but the code has no
try/finally: when `pd.read_table` raises on the second handle (here:
its remaining content is empty, `EmptyDataError`), the first handle has
been closed but the raising handle is left open when the exception
propagates. -/
theorem claim_C3 :
    _FileContentsToDataFrame
        { baseState with titles := [("x").toList, ("y").toList] }
        [⟨[("x y\n").toList, ("1 2\n").toList], 1, false⟩,
          ⟨[("x y\n").toList], 1, false⟩] =
      (.error .pandasError,
        [⟨[("x y\n").toList, ("1 2\n").toList], 2, true⟩,
          ⟨[("x y\n").toList], 1, false⟩]) ∧
      (⟨[("x y\n").toList], 1, false⟩ : Handle).closed = false := by
  constructor
  · simp [_FileContentsToDataFrame, readTable, tableRows, chomp, pysplit, splitSub,
      _GetDeli, baseState, strip, lstrip, rstrip, pyIsSpace]
  · rfl

/-- The success half of the docstring: when every handle parses, every
handle is closed on return. -/
theorem _FileContentsToDataFrame_ok_closed (s : ReaderState) (hs : List Handle)
    (dfs : List DataFrame) (hs' : List Handle)
    (hok : _FileContentsToDataFrame s hs = (.ok dfs, hs')) :
    ∀ h ∈ hs', h.closed = true := by
  induction hs generalizing dfs hs' with
  | nil =>
    rw [_FileContentsToDataFrame] at hok
    simp only [Prod.mk.injEq] at hok
    rw [← hok.2]
    simp
  | cons h t ih =>
    rw [_FileContentsToDataFrame] at hok
    rcases hpar : (if s.useTab then readTable s.titles none s.comments h
        else readTable s.titles (_GetDeli s) s.comments h) with ⟨rp, hp⟩
    rw [hpar] at hok
    rcases rp with e | df
    · simp at hok
    · rcases hrec : _FileContentsToDataFrame s t with ⟨rr, hr⟩
      rw [hrec] at hok
      rcases rr with e | dfs'
      · simp at hok
      · simp only [Prod.mk.injEq] at hok
        rw [← hok.2]
        intro x hx
        rcases List.mem_cons.mp hx with rfl | hx'
        · rfl
        · exact ih dfs' hr hrec x hx'

/-- C2 as stated is false: a FileSet of one file holding only a header
line passes header extraction (so `self._titles` is assigned) and then
fails in `pd.read_table` (no data rows remain), leaving a cache whose
titles were replaced but whose frames and dirty flag were not — an
observable partially updated state after a failed refresh. -/
theorem claim_C2_counterexample :
    _ReadUpFront [some [("x y\n").toList]] baseState =
      (.error .pandasError,
        { baseState with titles := [("x").toList, ("y").toList] }) ∧
      ({ baseState with titles := [("x").toList, ("y").toList] } : ReaderState) ≠
        baseState := by
  constructor
  · simp [_ReadUpFront, _GetFileHandles, skipLines, _ExtractHeaders, _ExtractHeadersLoop,
      _ExtractHeader, _readline, _readlineLoop, _previewline, stripComment, splitSub,
      strip, lstrip, rstrip, pyIsSpace, reconcileTitles, npUniqueRows, isRect, uniqRows,
      _FileContentsToDataFrame, readTable, tableRows, chomp, pysplit, _GetDeli, baseState,
      Handle.readline]
  · simp [baseState]

/-- C2 (amended): a successful refresh replaces `_data` and `_titles`
and clears the dirty flag; a failed refresh leaves `_data`, the dirty
flag and all configuration unchanged from before the trigger — but not
necessarily `_titles`: a failure in the frame-parsing stage happens
after `self._titles` has already been replaced (per the
counterexample), so only failures in opening or header extraction leave
the whole cache state unchanged. -/
theorem claim_C2 (files : FileSet) (s : ReaderState) :
    ((_ReadUpFront files s).1 = .ok () →
      (_ReadUpFront files s).2.needToRead = false) ∧
    (∀ e, (_ReadUpFront files s).1 = .error e →
      (_ReadUpFront files s).2.data = s.data ∧
      (_ReadUpFront files s).2.needToRead = s.needToRead) ∧
    (∀ e, (_ReadUpFront files s).1 = .error e →
      ((_GetFileHandles s files).1 = .error e ∨
          (∃ handles, (_GetFileHandles s files).1 = .ok handles ∧
            (_ExtractHeaders s handles).1 = .error e) →
        (_ReadUpFront files s).2 = s)) ∧
    ((_ReadUpFront files s).2.delimiter = s.delimiter ∧
      (_ReadUpFront files s).2.useTab = s.useTab ∧
      (_ReadUpFront files s).2.skipRows = s.skipRows ∧
      (_ReadUpFront files s).2.comments = s.comments ∧
      (_ReadUpFront files s).2.hasTitles = s.hasTitles) := by
  rw [_ReadUpFront]
  rcases h1 : _GetFileHandles s files with ⟨r1, hs1⟩
  rcases r1 with e1 | handles
  · simp [h1]
  · rcases h2 : _ExtractHeaders s handles with ⟨r2, hs2⟩
    rcases r2 with e2 | titles
    · simp [h1, h2]
    · rcases h3 : _FileContentsToDataFrame { s with titles := titles } hs2
        with ⟨r3, hs3⟩
      rcases r3 with e3 | data
      · simp [h1, h2, h3]
      · simp [h1, h2, h3]

/-- Witness for C2 at concrete inputs: a failing refresh (the single
file fails to open) leaves frames and dirty flag unchanged; a
successful refresh clears the dirty flag. -/
theorem claim_C2_witness :
    ((_ReadUpFront [none] baseState).2.data = baseState.data ∧
      (_ReadUpFront [none] baseState).2.needToRead = baseState.needToRead) ∧
      (_ReadUpFront [some [("x y\n").toList, ("1 2\n").toList]] baseState).2.needToRead =
        false := by
  constructor
  · exact (claim_C2 [none] baseState).2.1
      (.pvgeoError "IOError: could not open file") rfl
  · refine (claim_C2 [some [("x y\n").toList, ("1 2\n").toList]] baseState).1 ?_
    simp [_ReadUpFront, _GetFileHandles, skipLines, _ExtractHeaders, _ExtractHeadersLoop,
      _ExtractHeader, _readline, _readlineLoop, _previewline, stripComment, splitSub,
      strip, lstrip, rstrip, pyIsSpace, reconcileTitles, npUniqueRows, isRect, uniqRows,
      _FileContentsToDataFrame, readTable, tableRows, chomp, pysplit, _GetDeli, baseState,
      Handle.readline]

/-- C7: with `hasTitles=false`, when the first logical line of the
stream splits into `n` fields, `_ExtractHeader` synthesizes exactly the
titles `Field 0, ..., Field (n-1)` in that order and returns the handle
at its original position (the peek is undone by `seek`, so the line is
later parsed as data); and any frame `pd.read_table` builds from those
names has exactly them as its column names. -/
theorem claim_C7 (s : ReaderState) (h h1 : Handle) (ln : List Char)
    (hht : s.hasTitles = false)
    (hread : _readline s.comments h = (.ok ln, h1)) :
    _ExtractHeader s h =
      (.ok ((List.range (pysplit (_GetDeli s) ln).length).map
        (fun i => ("Field " ++ toString i).toList)), h) ∧
    ∀ names sep c h' df h'', readTable names sep c h' = (.ok df, h'') →
      df.columns = names := by
  constructor
  · rw [_ExtractHeader, if_neg (by rw [hht]; exact Bool.false_ne_true),
      _previewline, hread]
    rfl
  · intro names sep c h' df h'' hok
    rw [readTable] at hok
    split at hok
    · simp at hok
    · simp only [Prod.mk.injEq] at hok
      have hdf := Except.ok.inj hok.1
      rw [← hdf]

/-- Witness for C7 at a concrete input: a one-line file `"1 2 3"` read
without titles synthesizes `Field 0, Field 1, Field 2`, leaves the
stream at position 0, and the materialized frame's column names are
exactly the synthesized titles. -/
theorem claim_C7_witness :
    _ExtractHeader { baseState with hasTitles := false }
        ⟨[("1 2 3\n").toList], 0, false⟩ =
      (.ok [("Field 0").toList, ("Field 1").toList, ("Field 2").toList],
        ⟨[("1 2 3\n").toList], 0, false⟩) ∧
      (readTable [("Field 0").toList, ("Field 1").toList, ("Field 2").toList]
        (some [' ']) '!' ⟨[("1 2 3\n").toList], 0, false⟩).1 =
        .ok ⟨[("Field 0").toList, ("Field 1").toList, ("Field 2").toList],
          [[("1").toList, ("2").toList, ("3").toList]]⟩ := by
  have hw := claim_C7 { baseState with hasTitles := false }
    ⟨[("1 2 3\n").toList], 0, false⟩ ⟨[("1 2 3\n").toList], 1, false⟩
    (("1 2 3").toList) rfl
    (by simp [_readline, _readlineLoop, stripComment, splitSub, strip, lstrip,
      rstrip, pyIsSpace, baseState])
  constructor
  · rw [hw.1]
    simp [pysplit, splitSub, _GetDeli, baseState, List.range_succ]
    decide
  · simp [readTable, tableRows, chomp, pysplit, splitSub, strip, lstrip, rstrip,
      pyIsSpace]

theorem splitSub_of_not_occurs {sep l : List Char} (hsep : sep ≠ [])
    (h : occursSub sep l = false) : splitSub sep l = [l] := by
  induction l with
  | nil =>
    rw [splitSub.eq_def, dif_neg hsep]
  | cons x xs ih =>
    rw [occursSub, afterFirstSub] at h
    by_cases hpre : sep.isPrefixOf (x :: xs)
    · rw [if_pos hpre] at h
      simp at h
    · rw [if_neg hpre] at h
      rw [splitSub.eq_def, dif_neg hsep]
      simp only [if_neg hpre]
      rw [ih h]

theorem splitSub_of_afterFirst {sep l after : List Char} (hsep : sep ≠ [])
    (h : afterFirstSub sep l = some after) :
    ∃ b, splitSub sep l = b :: splitSub sep after := by
  induction l with
  | nil => simp [afterFirstSub] at h
  | cons x xs ih =>
    rw [afterFirstSub] at h
    by_cases hpre : sep.isPrefixOf (x :: xs)
    · rw [if_pos hpre] at h
      rw [Option.some_inj] at h
      subst h
      refine ⟨[], ?_⟩
      rw [splitSub.eq_def, dif_neg hsep]
      simp only [if_pos hpre]
    · rw [if_neg hpre] at h
      obtain ⟨b, hb⟩ := ih h
      refine ⟨x :: b, ?_⟩
      rw [splitSub.eq_def, dif_neg hsep]
      simp only [if_neg hpre]
      rw [hb]

theorem splitSub_get_one_of_occurs_once {sep l after : List Char} (hsep : sep ≠ [])
    (h : afterFirstSub sep l = some after) (hafter : occursSub sep after = false) :
    (splitSub sep l).get? 1 = some after := by
  obtain ⟨b, hb⟩ := splitSub_of_afterFirst hsep h
  rw [hb, splitSub_of_not_occurs hsep hafter]
  rfl

/-- C10 as stated is false on a first line with two `'! '` markers:
`split('! ')[1]` is the text *between* the first and second marker, not
the text after the first marker.  On `"a! b! c, d\n"` the code yields
`["b"]`, while the `', '`-separated fields of the text after the marker
are `["b! c", "d"]`. -/
theorem claim_C10_counterexample :
    (XYZExtractHeader ⟨[("a! b! c, d\n").toList], 0, false⟩).1 =
        .ok [("b").toList] ∧
      specFieldsAfterMarker (("a! b! c, d\n").toList) =
        some [("b! c").toList, ("d").toList] := by
  constructor
  · simp [XYZExtractHeader, Handle.readline, splitSub, strip, lstrip, rstrip, pyIsSpace]
  · simp [specFieldsAfterMarker, afterFirstSub, splitSub, strip, lstrip, rstrip,
      pyIsSpace, List.isPrefixOf]

/-- C10 (amended): `XYZTextReader._ExtractHeader` splits the raw first
physical line (one plain `readline`, with no comment skipping even
though this variant's default comment character is `'#'`) on the
literal `'! '` and takes piece 1: when the line has no `'! '` marker it
raises an unguarded `IndexError`; when the line contains exactly one
`'! '` marker it returns the `', '`-separated fields of the stripped
text after the marker, exactly as the spec-worded
`specFieldsAfterMarker` describes (with two or more markers the two
disagree, per the counterexample). -/
theorem claim_C10 (h : Handle) :
    (occursSub ('!' :: [' ']) h.readline.1 = false →
      (XYZExtractHeader h).1 = .error .indexError) ∧
    (∀ after, afterFirstSub ('!' :: [' ']) h.readline.1 = some after →
      occursSub ('!' :: [' ']) after = false →
      (XYZExtractHeader h).1 = .ok (splitSub (',' :: [' ']) (strip after)) ∧
        specFieldsAfterMarker h.readline.1 =
          some (splitSub (',' :: [' ']) (strip after))) := by
  constructor
  · intro hocc
    rw [XYZExtractHeader]
    rw [splitSub_of_not_occurs (by simp) hocc]
    rfl
  · intro after hafter hocc
    constructor
    · rw [XYZExtractHeader]
      rw [splitSub_get_one_of_occurs_once (by simp) hafter hocc]
    · rw [specFieldsAfterMarker, hafter]

/-- Witness for C10 at concrete inputs: a well-formed XYZ header line
with one marker, and a marker-less line that raises. -/
theorem claim_C10_witness :
    (XYZExtractHeader ⟨[("! X, Y\n").toList], 0, false⟩).1 =
        .ok [("X").toList, ("Y").toList] ∧
      (XYZExtractHeader ⟨[("no marker\n").toList], 0, false⟩).1 =
        .error .indexError := by
  constructor
  · have hw := (claim_C10 ⟨[("! X, Y\n").toList], 0, false⟩).2
      (("X, Y\n").toList) (by decide) (by decide)
    rw [hw.1]
    simp [splitSub, strip, lstrip, rstrip, pyIsSpace]
  · exact (claim_C10 ⟨[("no marker\n").toList], 0, false⟩).1 (by decide)

/-- Witness for C5 at concrete inputs: index 0 hits the single cached
frame and index 2 is rejected. -/
theorem claim_C5_witness :
    _GetRawData exState5 0 = .ok ⟨[("x").toList], [[("1").toList]]⟩ ∧
      _GetRawData exState5 2 = .error .indexError := by
  constructor
  · exact (claim_C5 exState5 0 rfl).1 _ (by decide) rfl
  · exact (claim_C5 exState5 2 rfl).2.1 (by right; decide)

end PVGeo
